import Mathlib

/-!
Shallow embedding of the RAG context-provider service in src/app.py
(Flask app with two operations: the context assembler get_rag_context
and the input gate validate_embedding, plus the /search handler).

Modelling conventions:
* Python floats (scores, vector elements) are modelled as rationals;
  the claims under study only use order comparisons, which floats
  decide exactly on the literals involved.
* The Pinecone index is an external collaborator: the list of matches
  it returns is a parameter of the embedded functions, exactly as the
  spec treats the index as opaque.
* Python dict lookup raising KeyError is modelled with Option fields
  plus an explicit exception type PyErr; an uncaught exception is the
  error branch of an Except value.
-/

/-- Constant from app.py: EMBEDDING_DIMENSION = 1536. -/
def EMBEDDING_DIMENSION : Nat := 1536

/-- Constant from app.py: SCORE_THRESHOLD = 0.81. -/
def SCORE_THRESHOLD : ℚ := 81 / 100

/-- Python values as they occur at this service boundary (JSON request
bodies and embedding elements). Python bool is a distinct constructor
even though at runtime bool is a subclass of int; the subclass
relation is reflected in the predicates below. -/
inductive PyVal where
  | int (n : Int)
  | float (q : ℚ)
  | bool (b : Bool)
  | str (s : String)
  | list (xs : List PyVal)
  | pyNone

/-- Python exceptions that can escape get_rag_context: an uncaught
KeyError from a dict lookup in the except-handler (fallback) path. -/
inductive PyErr where
  | keyError (key : String)
deriving DecidableEq

/-- The parts of a match's metadata dict that get_rag_context reads.
Each field is an Option: none models a lookup that raises.
nodeText abstracts the whole primary chain
json.loads(metadata["_node_content"])["metadata"]["text"]:
it is some t exactly when that chain succeeds and yields t, and none
when any step of it raises (missing "_node_content" key, malformed
JSON, missing nested "metadata" or "text" field) — all of which the
source's try/except treats identically. text is the flat "text"
field; c_document_id is the provenance identifier field. Values are
the strings the f-string interpolation would render. -/
structure MatchMeta where
  nodeText : Option String
  text : Option String
  c_document_id : Option String
deriving DecidableEq

/-- One item of retrieved_docs["matches"]: a score and a metadata
dict, as produced by the external index. -/
structure MatchResult where
  score : ℚ
  metadata : MatchMeta
deriving DecidableEq

/-- The try/except block of get_rag_context for one qualifying match.
The try body reads the nested text then the provenance field; on any
exception the handler reads the flat "text" field then the provenance
field, and an exception raised inside the handler propagates
(it is not caught by the same try). -/
def extract_doc (m : MatchMeta) : Except PyErr (String × String) :=
  match m.nodeText, m.c_document_id with
  | some t, some p => .ok (t, p)
  | _, _ =>
    match m.text with
    | none => .error (.keyError "text")
    | some t =>
      match m.c_document_id with
      | none => .error (.keyError "c_document_id")
      | some p => .ok (t, p)

/-- The accumulation loop of get_rag_context: iterate over the matches
in index order, skip matches with score <= threshold, extract
(text, provenance) for qualifying ones and append the citation block;
an uncaught extraction exception aborts the whole loop. -/
def assembleBlocks (ms : List MatchResult) (score_thresh : ℚ) :
    Except PyErr String :=
  match ms with
  | [] => .ok ""
  | doc :: rest =>
    if score_thresh < doc.score then
      match extract_doc doc.metadata with
      | .error e => .error e
      | .ok (t, p) =>
        match assembleBlocks rest score_thresh with
        | .error e => .error e
        | .ok ctx => .ok (t ++ "(Ref: " ++ p ++ ".)\n" ++ ctx)
    else
      assembleBlocks rest score_thresh

/-- get_rag_context from app.py, with the index's reply passed in as
the matches parameter (the pinecone_index.query call is the external
collaborator). Returns the accumulated context if non-empty, else the
sentinel string; the error branch is an uncaught Python exception. -/
def get_rag_context (ms : List MatchResult) (score_thresh : ℚ) :
    Except PyErr String :=
  match assembleBlocks ms score_thresh with
  | .error e => .error e
  | .ok context =>
    if context ≠ "" then .ok context
    else .ok "Context not related to EDS"

/-- The test isinstance(embedding, list), the first check of
validate_embedding. -/
def is_list : PyVal → Bool
  | .list _ => true
  | _ => false

/-- The test isinstance(x, (int, float)) from validate_embedding.
In Python, bool is a subclass of int, so boolean elements pass this
test; the bool constructor is therefore accepted here. -/
def is_numeric : PyVal → Bool
  | .int _ => true
  | .float _ => true
  | .bool _ => true
  | _ => false

/-- validate_embedding from app.py: returns (is_valid, error_message),
checking list-ness, then dimension, then element numericness, in that
order with early return. -/
def validate_embedding (embedding : PyVal) : Bool × Option String :=
  match embedding with
  | .list xs =>
    if xs.length ≠ EMBEDDING_DIMENSION then
      (false,
       some "query_embedding must have exactly 1536 dimensions (text-embedding-ada-002 format)")
    else if xs.all is_numeric then
      (true, none)
    else
      (false, some "query_embedding must contain only numbers")
  | _ => (false, some "query_embedding must be a list of numbers")

/-- The test isinstance(top_k, int) from the search handler; Python
bool is a subclass of int, so booleans pass. -/
def py_is_int : PyVal → Bool
  | .int _ => true
  | .bool _ => true
  | _ => false

/-- Integer value of a Python int-like value (True == 1, False == 0),
used for the top_k < 1 comparison and for the value handed to the
index query. -/
def py_int_val : PyVal → Int
  | .int n => n
  | .bool b => if b then 1 else 0
  | _ => 0

/-- The parsed JSON body of a /search request: presence and value of
the query_embedding and top_k keys (the only keys the handler reads). -/
structure RequestData where
  query_embedding : Option PyVal
  top_k : Option PyVal

/-- Responses the /search handler can produce: 400 with an error name
and details, 500 built from an uncaught exception, or 200 with the
context string. -/
inductive SearchResponse where
  | badRequest (error : String) (details : String)
  | serverError (e : PyErr)
  | ok (context : String)

/-- Result of one /search request: the HTTP response together with the
query actually issued to the index (vector and top_k), or none when no
upstream call was made. -/
structure SearchOutcome where
  response : SearchResponse
  upstreamQuery : Option (PyVal × Int)

/-- The /search handler from app.py. indexMatches is the reply the
external index would give to the query; it is consumed only if control
reaches the get_rag_context call. The handler checks the presence of
query_embedding, validates it, validates top_k (default 2), and only
then issues the index query inside get_rag_context; an exception
escaping get_rag_context becomes the 500 response. -/
def search (data : RequestData) (indexMatches : List MatchResult) :
    SearchOutcome :=
  match data.query_embedding with
  | none =>
    ⟨.badRequest "query_embedding is required"
       "Must provide an embedding from text-embedding-ada-002 model", none⟩
  | some emb =>
    match validate_embedding emb with
    | (false, msg) =>
      ⟨.badRequest "Invalid embedding format" (msg.getD ""), none⟩
    | (true, _) =>
      let top_k := data.top_k.getD (.int 2)
      if ¬ (py_is_int top_k = true ∧ 1 ≤ py_int_val top_k) then
        ⟨.badRequest "Invalid top_k value" "top_k must be a positive integer",
         none⟩
      else
        match get_rag_context indexMatches SCORE_THRESHOLD with
        | .ok context => ⟨.ok context, some (emb, py_int_val top_k)⟩
        | .error e => ⟨.serverError e, some (emb, py_int_val top_k)⟩

/-- Concatenation of a list of strings in order, used to state what
the accumulated context buffer equals. -/
def concatList : List String → String
  | [] => ""
  | s :: rest => s ++ concatList rest

/-- The citation block a match contributes when its extraction
succeeds (empty when extraction raises, a case that never coexists
with a successfully returned context). -/
def docBlock (m : MatchResult) : String :=
  match extract_doc m.metadata with
  | .ok (t, p) => t ++ "(Ref: " ++ p ++ ".)\n"
  | .error _ => ""

/-- The qualifying sub-list: matches scoring strictly above the
threshold, in index order. -/
def qualifying (ms : List MatchResult) (score_thresh : ℚ) :
    List MatchResult :=
  ms.filter (fun d => decide (score_thresh < d.score))

/-! Helper lemmas about the assembly loop. -/

/-- Skipped matches are invisible: running the loop on the qualifying
sub-list gives the same result as running it on the full list. -/
theorem assembleBlocks_filter (ms : List MatchResult) (th : ℚ) :
    assembleBlocks (ms.filter (fun d => decide (th < d.score))) th
      = assembleBlocks ms th := by
  induction ms with
  | nil => rfl
  | cons doc rest ih =>
    by_cases h : th < doc.score
    · simp [List.filter, h, assembleBlocks, ih]
    · simp [List.filter, h, assembleBlocks, ih]

/-- When every match scores at or below the threshold, the loop
accumulates nothing. -/
theorem assembleBlocks_all_below (ms : List MatchResult) (th : ℚ)
    (h : ∀ m ∈ ms, m.score ≤ th) : assembleBlocks ms th = .ok "" := by
  induction ms with
  | nil => rfl
  | cons doc rest ih =>
    have h1 : ¬ th < doc.score := not_lt.mpr (h doc (by simp))
    simp only [assembleBlocks, h1, if_false]
    exact ih (fun m hm => h m (List.mem_cons_of_mem _ hm))

/-- If extraction succeeds on every qualifying match, the loop
succeeds. -/
theorem assembleBlocks_ok_of_extractOk (ms : List MatchResult) (th : ℚ)
    (h : ∀ m ∈ ms, th < m.score → (extract_doc m.metadata).isOk = true) :
    ∃ s, assembleBlocks ms th = .ok s := by
  induction ms with
  | nil => exact ⟨"", rfl⟩
  | cons doc rest ih =>
    obtain ⟨s, hs⟩ := ih (fun m hm hq => h m (List.mem_cons_of_mem _ hm) hq)
    by_cases hq : th < doc.score
    · have hok := h doc (List.mem_cons_self _ _) hq
      cases he : extract_doc doc.metadata with
      | error e => rw [he] at hok; simp [Except.isOk, Except.toBool] at hok
      | ok tp =>
        exact ⟨tp.1 ++ "(Ref: " ++ tp.2 ++ ".)\n" ++ s,
          by simp [assembleBlocks, hq, he, hs]⟩
    · exact ⟨s, by simp [assembleBlocks, hq, hs]⟩

/-- If the loop succeeds, extraction succeeded on every qualifying
match. -/
theorem extractOk_of_assembleBlocks_ok (ms : List MatchResult) (th : ℚ)
    (s : String) (h : assembleBlocks ms th = .ok s) :
    ∀ m ∈ ms, th < m.score → (extract_doc m.metadata).isOk = true := by
  induction ms generalizing s with
  | nil => intro m hm; cases hm
  | cons doc rest ih =>
    intro m hm hq
    by_cases hd : th < doc.score
    · simp only [assembleBlocks, hd, if_true] at h
      cases he : extract_doc doc.metadata with
      | error e => rw [he] at h; cases h
      | ok tp =>
        rw [he] at h
        cases hr : assembleBlocks rest th with
        | error e => rw [hr] at h; cases h
        | ok s2 =>
          rcases List.mem_cons.mp hm with rfl | hm2
          · simp [he, Except.isOk, Except.toBool]
          · exact ih s2 hr m hm2 hq
    · simp only [assembleBlocks, hd, if_false] at h
      rcases List.mem_cons.mp hm with rfl | hm2
      · exact absurd hq hd
      · exact ih s h m hm2 hq

/-- If the loop succeeds, its output is the concatenation of the
qualifying matches' citation blocks, in index order. -/
theorem assembleBlocks_ok_join (ms : List MatchResult) (th : ℚ)
    (s : String) (h : assembleBlocks ms th = .ok s) :
    s = concatList ((qualifying ms th).map docBlock) := by
  induction ms generalizing s with
  | nil =>
    cases h; rfl
  | cons doc rest ih =>
    by_cases hd : th < doc.score
    · simp only [assembleBlocks, hd, if_true] at h
      cases he : extract_doc doc.metadata with
      | error e => rw [he] at h; cases h
      | ok tp =>
        rw [he] at h
        cases hr : assembleBlocks rest th with
        | error e => rw [hr] at h; cases h
        | ok s2 =>
          rw [hr] at h
          cases h
          have : docBlock doc = tp.1 ++ "(Ref: " ++ tp.2 ++ ".)\n" := by
            simp [docBlock, he]
          simp [qualifying, List.filter, hd, concatList, this,
            ih s2 hr, String.append_assoc]
    · simp only [assembleBlocks, hd, if_false] at h
      simpa [qualifying, List.filter, hd] using ih s h

/-- If a list has the expected length and only numeric elements,
validation succeeds with no message. -/
theorem validate_embedding_list_ok (xs : List PyVal)
    (h1 : xs.length = EMBEDDING_DIMENSION) (h2 : xs.all is_numeric = true) :
    validate_embedding (.list xs) = (true, none) := by
  simp [validate_embedding, h1, h2]

/-- If a list has the expected length but a non-numeric element,
validation fails with the fixed non-numeric message. -/
theorem validate_embedding_list_nonnum (xs : List PyVal)
    (h1 : xs.length = EMBEDDING_DIMENSION) (h2 : xs.all is_numeric = false) :
    validate_embedding (.list xs)
      = (false, some "query_embedding must contain only numbers") := by
  simp [validate_embedding, h1, h2]

/-- A successfully extracted citation block has positive length (it
ends in the three characters of the closing marker and the newline). -/
theorem docBlock_length_pos (m : MatchResult) (tp : String × String)
    (he : extract_doc m.metadata = .ok tp) : 0 < (docBlock m).length := by
  simp only [docBlock, he, String.length_append]
  have h3 : (0:Nat) < ".)\n".length := by decide
  omega

/-! Claim theorems. -/

/-- C1, counterexample: the context assembler can fail on its own.
A qualifying match whose metadata lacks the nested payload, the flat
text field and the provenance field makes get_rag_context raise an
uncaught KeyError instead of returning a string. -/
theorem c1_counterexample :
    get_rag_context
      [{ score := mkRat 9 10,
         metadata := { nodeText := none, text := none, c_document_id := none } }]
      (mkRat 81 100) = .error (.keyError "text") := by
  rfl

/-- C1, amended: get_rag_context completes with a string provided the
per-match extraction (primary path, or fallback via the flat text
field and the provenance field) succeeds for every qualifying match;
when both strategies fail on some qualifying match, the exception
escapes the assembler and escalates to a request-level error. -/
theorem c1_amended_total_when_extraction_succeeds
    (ms : List MatchResult) (th : ℚ)
    (h : ∀ m ∈ ms, th < m.score → (extract_doc m.metadata).isOk = true) :
    ∃ s, get_rag_context ms th = .ok s := by
  obtain ⟨s, hs⟩ := assembleBlocks_ok_of_extractOk ms th h
  by_cases he : s = ""
  · exact ⟨"Context not related to EDS", by simp [get_rag_context, hs, he]⟩
  · exact ⟨s, by simp [get_rag_context, hs, he]⟩

/-- C1, amended, witness at a concrete input. -/
theorem c1_amended_witness :
    ∃ s, get_rag_context
      [{ score := mkRat 9 10,
         metadata := { nodeText := none, text := some "t", c_document_id := some "p" } }]
      (mkRat 81 100) = .ok s :=
  c1_amended_total_when_extraction_succeeds _ _ (by decide)

/-- C2: the score threshold is exclusive — matches with score at or
below the threshold are skipped, so the assembled context is the same
as if only the strictly-greater-scoring matches had been returned. -/
theorem c2_threshold_exclusive (ms : List MatchResult) (th : ℚ) :
    get_rag_context ms th = get_rag_context (qualifying ms th) th := by
  unfold get_rag_context qualifying
  rw [assembleBlocks_filter]

/-- C3: when no match scores strictly above the threshold (the empty
match set included), get_rag_context returns the fixed sentinel
string, which is not the empty string. -/
theorem c3_sentinel_when_no_qualifying (ms : List MatchResult) (th : ℚ)
    (h : ∀ m ∈ ms, m.score ≤ th) :
    get_rag_context ms th = .ok "Context not related to EDS" ∧
      "Context not related to EDS" ≠ "" := by
  refine ⟨?_, by decide⟩
  simp [get_rag_context, assembleBlocks_all_below ms th h]

/-- C3, witness at a concrete input (one match below threshold). -/
theorem c3_witness :
    get_rag_context
      [{ score := mkRat 1 2,
         metadata := { nodeText := none, text := none, c_document_id := none } }]
      (mkRat 81 100) = .ok "Context not related to EDS" ∧
      "Context not related to EDS" ≠ "" :=
  c3_sentinel_when_no_qualifying _ _ (by decide)

/-- C4: whenever get_rag_context returns a context string and at least
one match scores strictly above the threshold, that string is exactly
the concatenation of one citation block per qualifying match, in the
order the index returned them. -/
theorem c4_one_block_per_qualifying_match_in_order
    (ms : List MatchResult) (th : ℚ) (r : String)
    (h : get_rag_context ms th = .ok r) (hq : qualifying ms th ≠ []) :
    r = concatList ((qualifying ms th).map docBlock) := by
  cases hb : assembleBlocks ms th with
  | error e =>
    have h2 : get_rag_context ms th = .error e := by
      unfold get_rag_context; rw [hb]
    rw [h2] at h; cases h
  | ok s =>
    have h2 : get_rag_context ms th
        = if s ≠ "" then (Except.ok s : Except PyErr String)
          else .ok "Context not related to EDS" := by
      unfold get_rag_context; rw [hb]
    have hjoin := assembleBlocks_ok_join ms th s hb
    have hOkAll := extractOk_of_assembleBlocks_ok ms th s hb
    have hpos : 0 < s.length := by
      cases hql : qualifying ms th with
      | nil => exact absurd hql hq
      | cons q qs =>
        have hqm : q ∈ qualifying ms th := by
          rw [hql]; exact List.mem_cons_self _ _
        unfold qualifying at hqm
        have hqf := List.mem_filter.mp hqm
        have hqs : th < q.score := by simpa using hqf.2
        have hqok := hOkAll q hqf.1 hqs
        cases he : extract_doc q.metadata with
        | error e =>
          rw [he] at hqok; simp [Except.isOk, Except.toBool] at hqok
        | ok tp =>
          have hdb := docBlock_length_pos q tp he
          rw [hjoin, hql]
          simp only [List.map_cons, concatList, String.length_append]
          omega
    have hne : s ≠ "" := by
      intro hcon
      rw [hcon] at hpos
      simp at hpos
    rw [h2, if_pos hne] at h
    cases h
    exact hjoin

/-- C4, witness at a concrete input with one qualifying match. -/
theorem c4_witness :
    "T(Ref: P.)\n" =
      concatList
        ((qualifying
          [{ score := mkRat 9 10,
             metadata := { nodeText := some "T", text := some "T2",
                           c_document_id := some "P" } }]
          (mkRat 81 100)).map docBlock) :=
  c4_one_block_per_qualifying_match_in_order _ _ _ (by rfl) (by decide)

/-- C5: a qualifying match whose extraction yields (t, p) contributes
to the returned context exactly the block t ++ "(Ref: " ++ p ++ ".)\n"
and nothing else — shown here for the match at the head of the list,
with the rest of the loop contributing the remainder s. -/
theorem c5_citation_block_format (th : ℚ) (m : MatchResult)
    (rest : List MatchResult) (t p s : String)
    (hq : th < m.score) (he : extract_doc m.metadata = .ok (t, p))
    (hr : assembleBlocks rest th = .ok s) :
    get_rag_context (m :: rest) th = .ok (t ++ "(Ref: " ++ p ++ ".)\n" ++ s) := by
  have hb : assembleBlocks (m :: rest) th
      = .ok (t ++ "(Ref: " ++ p ++ ".)\n" ++ s) := by
    simp [assembleBlocks, hq, he, hr]
  have hne : t ++ "(Ref: " ++ p ++ ".)\n" ++ s ≠ "" := by
    intro hcon
    have : (t ++ "(Ref: " ++ p ++ ".)\n" ++ s).length = 0 := by
      rw [hcon]; rfl
    simp only [String.length_append] at this
    have h3 : (0:Nat) < ".)\n".length := by decide
    omega
  simp [get_rag_context, hb, hne]

/-- C5, witness at a concrete input. -/
theorem c5_witness :
    get_rag_context
      [{ score := mkRat 95 100,
         metadata := { nodeText := some "passage ",
                       text := none, c_document_id := some "PMID1" } }]
      (mkRat 81 100) = .ok ("passage " ++ "(Ref: " ++ "PMID1" ++ ".)\n" ++ "") :=
  c5_citation_block_format _ _ [] _ _ _ (by decide) (by rfl) (by rfl)

/-- C6: a qualifying match whose metadata lacks the nested encoded
payload but carries the flat text field and the provenance field is
extracted through the fallback path, which reads the same
c_document_id field, and yields the correct citation block. -/
theorem c6_fallback_extraction (meta : MatchMeta) (t p : String)
    (score th : ℚ) (hnode : meta.nodeText = none)
    (htext : meta.text = some t) (hprov : meta.c_document_id = some p)
    (hq : th < score) :
    extract_doc meta = .ok (t, p) ∧
      get_rag_context [{ score := score, metadata := meta }] th
        = .ok (t ++ "(Ref: " ++ p ++ ".)\n") := by
  have he : extract_doc meta = .ok (t, p) := by
    simp [extract_doc, hnode, htext, hprov]
  refine ⟨he, ?_⟩
  have := c5_citation_block_format th { score := score, metadata := meta }
    [] t p "" hq he rfl
  simpa using this

/-- C6, witness at a concrete input. -/
theorem c6_witness :
    extract_doc { nodeText := none, text := some "flat text ",
                  c_document_id := some "DOC9" } = .ok ("flat text ", "DOC9") ∧
      get_rag_context
        [{ score := mkRat 9 10,
           metadata := { nodeText := none, text := some "flat text ",
                         c_document_id := some "DOC9" } }]
        (mkRat 81 100)
        = .ok ("flat text " ++ "(Ref: " ++ "DOC9" ++ ".)\n") :=
  c6_fallback_extraction _ _ _ _ _ rfl rfl rfl (by decide)

/-- C7: the validator checks list-ness, then dimension, then element
numericness, in that order with short-circuit: a non-list value gets
the sequence error whatever it is; a list of wrong length gets the
dimension error regardless of its elements; only a list of the right
length is checked for numericness. -/
theorem c7_validation_order :
    (∀ v : PyVal, is_list v = false →
      validate_embedding v
        = (false, some "query_embedding must be a list of numbers")) ∧
    (∀ xs : List PyVal, xs.length ≠ EMBEDDING_DIMENSION →
      validate_embedding (.list xs)
        = (false,
           some "query_embedding must have exactly 1536 dimensions (text-embedding-ada-002 format)")) ∧
    (∀ xs : List PyVal, xs.length = EMBEDDING_DIMENSION →
      (¬ xs.all is_numeric) →
      validate_embedding (.list xs)
        = (false, some "query_embedding must contain only numbers")) := by
  refine ⟨?_, ?_, ?_⟩
  · intro v hv
    cases v <;> simp_all [is_list, validate_embedding]
  · intro xs hlen
    simp [validate_embedding, hlen]
  · intro xs hlen hnum
    simp [validate_embedding, hlen, hnum]

/-- C7, witness: the dimension error fires on a 1-element list whose
sole element is non-numeric, and a plain string gets the sequence
error. -/
theorem c7_witness :
    validate_embedding (.str "v")
        = (false, some "query_embedding must be a list of numbers") ∧
      validate_embedding (.list [.str "a"])
        = (false,
           some "query_embedding must have exactly 1536 dimensions (text-embedding-ada-002 format)") :=
  ⟨c7_validation_order.1 (.str "v") (by decide),
   c7_validation_order.2.1 [.str "a"] (by decide)⟩

/-- C8, counterexample: the non-numeric-element error does not carry
the offending index. Two correct-dimension vectors whose first
offending indices differ (0 and 1535) get the identical, fixed error
value, so the error cannot identify the first offending index. -/
theorem c8_counterexample :
    validate_embedding (.list (.str "a" :: List.replicate 1535 (.int 0)))
        = validate_embedding
            (.list (List.replicate 1535 (.int 0) ++ [.str "a"])) ∧
      validate_embedding (.list (.str "a" :: List.replicate 1535 (.int 0)))
        = (false, some "query_embedding must contain only numbers") := by
  have hlen1 : (PyVal.str "a" :: List.replicate 1535 (PyVal.int 0)).length
      = EMBEDDING_DIMENSION := by
    rw [List.length_cons, List.length_replicate]; rfl
  have hlen2 : (List.replicate 1535 (PyVal.int 0) ++ [PyVal.str "a"]).length
      = EMBEDDING_DIMENSION := by
    rw [List.length_append, List.length_replicate]; rfl
  have hall1 : (PyVal.str "a" :: List.replicate 1535 (PyVal.int 0)).all
      is_numeric = false := by
    rw [List.all_cons]; rfl
  have hall2 : (List.replicate 1535 (PyVal.int 0) ++ [PyVal.str "a"]).all
      is_numeric = false := by
    rw [List.all_append]
    have hs : ([PyVal.str "a"]).all is_numeric = false := rfl
    rw [hs, Bool.and_false]
  have e1 := validate_embedding_list_nonnum _ hlen1 hall1
  have e2 := validate_embedding_list_nonnum _ hlen2 hall2
  exact ⟨e1.trans e2.symm, e1⟩

/-- C8, amended: for every list of the correct dimension containing at
least one non-numeric element, validate_embedding returns failure with
the fixed message about non-numeric content; the message does not
depend on (and so does not identify) the offending index. -/
theorem c8_amended_fixed_nonnumeric_error (xs : List PyVal)
    (hlen : xs.length = EMBEDDING_DIMENSION)
    (hbad : ∃ x ∈ xs, is_numeric x = false) :
    validate_embedding (.list xs)
      = (false, some "query_embedding must contain only numbers") := by
  have hnum : ¬ xs.all is_numeric := by
    obtain ⟨x, hx, hxf⟩ := hbad
    intro hall
    have := List.all_eq_true.mp hall x hx
    rw [hxf] at this
    cases this
  simp [validate_embedding, hlen, hnum]

/-- C8, amended, witness at a concrete input. -/
theorem c8_amended_witness :
    validate_embedding (.list (.str "a" :: List.replicate 1535 (.int 0)))
      = (false, some "query_embedding must contain only numbers") :=
  c8_amended_fixed_nonnumeric_error _
    (by rw [List.length_cons, List.length_replicate]; rfl)
    ⟨.str "a", List.mem_cons_self _ _, rfl⟩

/-- C9: a request whose query_embedding passes validation but whose
top_k value is not a positive Python integer (not int-typed, or below
one) is answered with the invalid-top_k 400 response, and no query is
issued to the index, whatever the index would have returned. -/
theorem c9_invalid_topk_rejected_before_upstream
    (emb v : PyVal) (ms : List MatchResult)
    (hv : (validate_embedding emb).1 = true)
    (hk : ¬ (py_is_int v = true ∧ 1 ≤ py_int_val v)) :
    search { query_embedding := some emb, top_k := some v } ms
      = { response := .badRequest "Invalid top_k value"
            "top_k must be a positive integer",
          upstreamQuery := none } := by
  cases hval : validate_embedding emb with
  | mk b msg =>
    rw [hval] at hv
    simp only at hv
    subst hv
    simp [search, hval, hk]

/-- C9, witness: top_k equal to zero on an otherwise valid request is
rejected with no upstream call. -/
theorem c9_witness :
    search { query_embedding := some (.list (List.replicate 1536 (.float 0))),
             top_k := some (.int 0) } []
      = { response := .badRequest "Invalid top_k value"
            "top_k must be a positive integer",
          upstreamQuery := none } :=
  c9_invalid_topk_rejected_before_upstream _ _ _
    (by
      rw [validate_embedding_list_ok (List.replicate 1536 (PyVal.float 0))
        (by rw [List.length_replicate]; rfl)
        (by
          rw [List.all_eq_true]
          intro x hx
          rw [List.eq_of_mem_replicate hx]
          rfl)])
    (by decide)

/-- C10: because Python bool is a subclass of int, boolean elements
count as numeric: every 1536-element list whose entries are booleans,
ints or floats passes validation, and with a positive integer top_k
the very same list is handed to the similarity query. -/
theorem c10_bool_elements_accepted (xs : List PyVal) (k : Int)
    (ms : List MatchResult) (hlen : xs.length = EMBEDDING_DIMENSION)
    (helts : ∀ x ∈ xs,
      (∃ b, x = .bool b) ∨ (∃ n, x = .int n) ∨ (∃ q, x = .float q))
    (hk : 1 ≤ k) :
    validate_embedding (.list xs) = (true, none) ∧
      (search { query_embedding := some (.list xs), top_k := some (.int k) }
        ms).upstreamQuery = some (.list xs, k) := by
  have hall : xs.all is_numeric := by
    rw [List.all_eq_true]
    intro x hx
    rcases helts x hx with ⟨b, rfl⟩ | ⟨n, rfl⟩ | ⟨q, rfl⟩ <;> rfl
  have hval : validate_embedding (.list xs) = (true, none) := by
    simp [validate_embedding, hlen, hall]
  refine ⟨hval, ?_⟩
  have hknot : ¬ (k < 1) := not_lt.mpr hk
  cases hctx : get_rag_context ms SCORE_THRESHOLD with
  | ok c => simp [search, hval, hctx, py_int_val, py_is_int, hknot]
  | error e => simp [search, hval, hctx, py_int_val, py_is_int, hknot]

/-- C10, witness: an all-boolean 1536-element vector validates and is
passed to the index query with top_k two. -/
theorem c10_witness :
    validate_embedding (.list (List.replicate 1536 (.bool true)))
        = (true, none) ∧
      (search { query_embedding := some (.list (List.replicate 1536 (.bool true))),
                top_k := some (.int 2) } []).upstreamQuery
        = some (.list (List.replicate 1536 (.bool true)), 2) :=
  c10_bool_elements_accepted _ _ _
    (by rw [List.length_replicate]; rfl)
    (by
      intro x hx
      rw [List.eq_of_mem_replicate hx]
      exact Or.inl ⟨true, rfl⟩)
    (by decide)
